import Mathlib

/-!
Verification of the jwk-rs JSON Web Key library: a shallow embedding of
`src/lib.rs` and `src/byte_array.rs` together with models of the helper
modules (`utils.rs`, `byte_vec.rs`, `key_ops.rs`) that the crate declares
but whose sources are specified only by the design document.

Bytes are modelled as natural numbers below 256; byte buffers as lists.
-/

set_option maxHeartbeats 1000000

deriving instance DecidableEq for Except

namespace JWK

/-- A byte list is valid when every entry is an actual byte value. -/
def validBytes (bs : List Nat) : Prop := ∀ b ∈ bs, b < 256

instance (bs : List Nat) : Decidable (validBytes bs) :=
  inferInstanceAs (Decidable (∀ b ∈ bs, b < 256))

/-- Modelled from the spec: `utils.rs` (the crate's base64 helpers) is not under
`src/`.  Per §3/§4.1 byte buffers serialize as base64 with the standard alphabet
and padding.  This is the standard base64 alphabet, in value order. -/
def b64Alphabet : List Char :=
  String.data "ABCDEFGHIJKLMNOPQRSTUVWXYZabcdefghijklmnopqrstuvwxyz0123456789+/"

/-- The alphabet character for a 6-bit value. -/
def b64Char (n : Nat) : Char := b64Alphabet.getD n 'A'

/-- The 6-bit value of an alphabet character, if any. -/
def b64Val (c : Char) : Option Nat := b64Alphabet.indexOf? c

/-- Base64 encoding of a byte list, three bytes to four characters,
with `=` padding on the final partial chunk. -/
def encodeChunks : List Nat → List Char
  | [] => []
  | [b1] => [b64Char (b1 / 4), b64Char (b1 % 4 * 16), '=', '=']
  | [b1, b2] =>
    [b64Char (b1 / 4), b64Char (b1 % 4 * 16 + b2 / 16), b64Char (b2 % 16 * 4), '=']
  | b1 :: b2 :: b3 :: rest =>
    b64Char (b1 / 4) :: b64Char (b1 % 4 * 16 + b2 / 16) ::
      b64Char (b2 % 16 * 4 + b3 / 64) :: b64Char (b3 % 64) :: encodeChunks rest

/-- Base64 decoding: four characters to three bytes, accepting `=` padding
only at the very end of the input. -/
def decodeChunks : List Char → Option (List Nat)
  | [] => some []
  | c1 :: c2 :: c3 :: c4 :: rest =>
    match b64Val c1, b64Val c2 with
    | some v1, some v2 =>
      if c3 = '=' then
        if c4 = '=' ∧ rest = [] then some [v1 * 4 + v2 / 16] else none
      else
        match b64Val c3 with
        | some v3 =>
          if c4 = '=' then
            if rest = [] then some [v1 * 4 + v2 / 16, v2 % 16 * 16 + v3 / 4] else none
          else
            match b64Val c4 with
            | some v4 =>
              (decodeChunks rest).map
                (fun bs => (v1 * 4 + v2 / 16) :: (v2 % 16 * 16 + v3 / 4) ::
                  (v3 % 4 * 64 + v4) :: bs)
            | none => none
        | none => none
    | _, _ => none
  | _ => none

/-- Base64-encode a byte list to a string. -/
def b64Encode (bs : List Nat) : String := ⟨encodeChunks bs⟩

/-- Base64-decode a string to a byte list, `none` on malformed input. -/
def b64Decode (s : String) : Option (List Nat) := decodeChunks s.data

theorem b64Val_b64Char : ∀ n, n < 64 → b64Val (b64Char n) = some n := by decide

theorem b64Char_ne_pad : ∀ n, n < 64 → b64Char n ≠ '=' := by decide

theorem decodeChunks_encodeChunks (bs : List Nat) (h : validBytes bs) :
    decodeChunks (encodeChunks bs) = some bs := by
  induction bs using encodeChunks.induct with
  | case1 => rfl
  | case2 b1 =>
    have hb1 : b1 < 256 := h b1 (by simp)
    have h1 : b1 / 4 < 64 := by omega
    have h2 : b1 % 4 * 16 < 64 := by omega
    simp [encodeChunks, decodeChunks, b64Val_b64Char _ h1, b64Val_b64Char _ h2]
    omega
  | case3 b1 b2 =>
    have hb1 : b1 < 256 := h b1 (by simp)
    have hb2 : b2 < 256 := h b2 (by simp)
    have h1 : b1 / 4 < 64 := by omega
    have h2 : b1 % 4 * 16 + b2 / 16 < 64 := by omega
    have h3 : b2 % 16 * 4 < 64 := by omega
    have hne3 := b64Char_ne_pad _ h3
    simp [encodeChunks, decodeChunks, b64Val_b64Char _ h1, b64Val_b64Char _ h2,
      b64Val_b64Char _ h3, hne3]
    omega
  | case4 b1 b2 b3 rest ih =>
    have hb1 : b1 < 256 := h b1 (by simp)
    have hb2 : b2 < 256 := h b2 (by simp)
    have hb3 : b3 < 256 := h b3 (by simp)
    have hrest : validBytes rest := by
      intro b hb
      exact h b (by simp [hb])
    have h1 : b1 / 4 < 64 := by omega
    have h2 : b1 % 4 * 16 + b2 / 16 < 64 := by omega
    have h3 : b2 % 16 * 4 + b3 / 64 < 64 := by omega
    have h4 : b3 % 64 < 64 := by omega
    have hne3 := b64Char_ne_pad _ h3
    have hne4 := b64Char_ne_pad _ h4
    simp [encodeChunks, decodeChunks, b64Val_b64Char _ h1, b64Val_b64Char _ h2,
      b64Val_b64Char _ h3, b64Val_b64Char _ h4, hne3, hne4, ih hrest]
    refine ⟨by omega, by omega, by omega⟩

theorem b64Decode_b64Encode (bs : List Nat) (h : validBytes bs) :
    b64Decode (b64Encode bs) = some bs :=
  decodeChunks_encodeChunks bs h

/-- Deserialization errors, modelling the serde error constructors used by this
crate: invalid_length carries the actual length and the expectation message. -/
inductive DeError
  | invalidLength (actual : Nat) (expected : String)
  | base64Decode
  | missingField (name : String)
  | invalidValue (msg : String)
  | invalidType (msg : String)
  | unknownVariant (msg : String)
  deriving DecidableEq, Repr

/-- Source byte_array.rs: ByteArray of N is a container for exactly N bytes.
The length invariant is established by construction through try_from_slice. -/
structure ByteArray (N : Nat) where
  bytes : List Nat
  deriving DecidableEq, Repr

/-- Source byte_array.rs lines 36-48: construction fails iff the slice length
differs from N, with an error reporting both expected and actual lengths. -/
def ByteArray.try_from_slice (N : Nat) (bytes : List Nat) :
    Except String (ByteArray N) :=
  let len := bytes.length
  if len ≠ N then .error s!"expected {N} bytes but got {len}"
  else .ok ⟨bytes⟩

/-- Source byte_array.rs lines 56-66: deserialization base64-decodes into a
zeroizing scratch buffer, then length-checks through try_from_slice, mapping
its error to serde's invalid_length with the actual and expected lengths. -/
def ByteArray.deserialize (N : Nat) (s : String) : Except DeError (ByteArray N) :=
  match b64Decode s with
  | none => .error .base64Decode
  | some bytes =>
    let len := bytes.length
    match ByteArray.try_from_slice N bytes with
    | .error _ => .error (.invalidLength len s!"{N} base64-encoded bytes")
    | .ok a => .ok a

/-- Source byte_array.rs lines 50-54: serialization emits the base64 string. -/
def ByteArray.serialize (N : Nat) (a : ByteArray N) : String := b64Encode a.bytes

/-- Modelled from the spec: `byte_vec.rs` is not under `src/`.  §3/§4.2: a
byte container of arbitrary length with the same base64 transport. -/
structure ByteVec where
  bytes : List Nat
  deriving DecidableEq, Repr

/-- Modelled from the spec, §4.2: ByteVec serializes as base64. -/
def ByteVec.serialize (v : ByteVec) : String := b64Encode v.bytes

/-- Modelled from the spec, §4.2: ByteVec deserializes by base64-decoding,
with no length constraint. -/
def ByteVec.deserialize (s : String) : Except DeError ByteVec :=
  match b64Decode s with
  | none => .error .base64Decode
  | some bytes => .ok ⟨bytes⟩

/-- Source lib.rs lines 401-415: the curve sub-union, tagged by crv; the only
variant is P-256 with optional private scalar d and coordinates x, y, each a
32-byte array. -/
inductive Curve
  | P256 (d : Option (ByteArray 32)) (x : ByteArray 32) (y : ByteArray 32)
  deriving DecidableEq, Repr

/-- Source lib.rs lines 429-431: the singleton standard RSA public exponent. -/
structure PublicExponent where
  deriving DecidableEq, Repr

/-- Source lib.rs line 425. -/
def PUBLIC_EXPONENT : Nat := 65537

/-- Source lib.rs line 426. -/
def PUBLIC_EXPONENT_B64 : String := "AQAB"

/-- Source lib.rs line 427. -/
def PUBLIC_EXPONENT_B64_PADDED : String := "AQABAA=="

/-- Source lib.rs lines 433-437: PublicExponent always serializes to "AQAB". -/
def PublicExponent.serialize (_ : PublicExponent) : String := PUBLIC_EXPONENT_B64

/-- Source lib.rs lines 439-451: PublicExponent deserializes from exactly the
canonical and the zero-padded encodings of 65537, failing otherwise with a
custom invalid-value error. -/
def PublicExponent.deserialize (e : String) : Except DeError PublicExponent :=
  if e = PUBLIC_EXPONENT_B64 ∨ e = PUBLIC_EXPONENT_B64_PADDED then .ok ⟨⟩
  else .error (.invalidValue s!"public exponent must be {PUBLIC_EXPONENT}")

/-- Source lib.rs lines 417-423. -/
structure RsaPublic where
  e : PublicExponent
  n : ByteVec
  deriving DecidableEq, Repr

/-- Source lib.rs lines 453-472: private exponent plus optional CRT params. -/
structure RsaPrivate where
  d : ByteVec
  p : Option ByteVec
  q : Option ByteVec
  dp : Option ByteVec
  dq : Option ByteVec
  qi : Option ByteVec
  deriving DecidableEq, Repr

/-- Source lib.rs lines 157-179: the key tagged union, tagged by kty.  The
Rust field name `private` is a Lean keyword and is rendered `priv`. -/
inductive Key
  | EC (curve : Curve)
  | RSA (public : RsaPublic) (priv : Option RsaPrivate)
  | Symmetric (key : ByteVec)
  deriving DecidableEq, Repr

/-- Source lib.rs lines 474-480. -/
inductive KeyUse
  | Signing
  | Encryption
  deriving DecidableEq, Repr

/-- Modelled from the spec: `key_ops.rs` is not under `src/`.  §3/§4.3: a set
of operation tokens, kept here as the list of tokens in serialization order. -/
structure KeyOps where
  ops : List String
  deriving DecidableEq, Repr

/-- Modelled from the spec, §4.3. -/
def KeyOps.is_empty (k : KeyOps) : Bool := k.ops.isEmpty

/-- Source lib.rs lines 482-487. -/
inductive Algorithm
  | HS256
  | RS256
  | ES256
  deriving DecidableEq, Repr

/-- Source lib.rs lines 78-94: the JWK envelope. -/
structure JsonWebKey where
  key : Key
  key_use : Option KeyUse
  key_ops : KeyOps
  key_id : Option String
  algorithm : Option Algorithm
  deriving DecidableEq, Repr

/-- Source lib.rs lines 548-558. -/
inductive Error
  | Serde (e : DeError)
  | Base64Decode
  | MismatchedAlgorithm
  deriving DecidableEq, Repr

/-- Source lib.rs lines 96-105. -/
def JsonWebKey.new (key : Key) : JsonWebKey :=
  ⟨key, none, ⟨[]⟩, none, none⟩

/-- Source lib.rs lines 117-131: the sole algorithm/key compatibility rule. -/
def JsonWebKey.validate_algorithm (alg : Algorithm) (key : Key) :
    Except Error Unit :=
  match alg, key with
  | .ES256, .EC (.P256 ..) => .ok ()
  | .RS256, .RSA .. => .ok ()
  | .HS256, .Symmetric .. => .ok ()
  | _, _ => .error .MismatchedAlgorithm

/-- Source lib.rs lines 107-111: set_algorithm validates then commits; the
`&mut self` mutation is modelled by returning the updated record. -/
def JsonWebKey.set_algorithm (jwk : JsonWebKey) (alg : Algorithm) :
    Except Error JsonWebKey :=
  match JsonWebKey.validate_algorithm alg jwk.key with
  | .error e => .error e
  | .ok _ => .ok { jwk with algorithm := some alg }

/-- Source lib.rs lines 184-196: a key is private iff it is symmetric, an EC
key with d present, or an RSA key with the private part present. -/
def Key.is_private : Key → Bool
  | .Symmetric _ => true
  | .EC (.P256 (some _) _ _) => true
  | .RSA _ (some _) => true
  | _ => false

/-- Source lib.rs lines 199-219: the public part of a key; the Cow wrapper is
dropped, keeping only the value it denotes. -/
def Key.to_public (k : Key) : Option Key :=
  if ¬ k.is_private then some k
  else
    match k with
    | .Symmetric _ => none
    | .EC (.P256 _ x y) => some (.EC (.P256 none x y))
    | .RSA pub _ => some (.RSA pub none)

/-- The fragment of JSON needed by the JWK wire format (§6): strings, arrays
and objects with ordered fields. -/
inductive Json
  | str (s : String)
  | arr (elems : List Json)
  | obj (fields : List (String × Json))

/-- First-match lookup of a field name in an object's field list. -/
def jlookup (name : String) : List (String × Json) → Option Json
  | [] => none
  | (k, v) :: rest => if k = name then some v else jlookup name rest

/-- Expect a JSON string, as serde does for string-typed fields. -/
def getStr : Json → Except DeError String
  | .str s => .ok s
  | _ => .error (.invalidType "expected a string")

/-- A field list for an optional field: the entry is present iff the value
is, matching serde's skip_serializing_if on option fields. -/
def optEntry (name : String) : Option Json → List (String × Json)
  | some j => [(name, j)]
  | none => []

/-- A field list for an optional ByteVec field. -/
def optField (name : String) (o : Option ByteVec) : List (String × Json) :=
  optEntry name (o.map (fun v => .str (ByteVec.serialize v)))

/-- Modelled from the serde derives on lib.rs lines 401-415 (spec §6): the
curve serializes its crv tag, then d (omitted when none), then x and y. -/
def Curve.serializeFields : Curve → List (String × Json)
  | .P256 d x y =>
    ("crv", .str "P-256") ::
      (optEntry "d" (d.map (fun dv => .str (ByteArray.serialize 32 dv))) ++
        [("x", .str (ByteArray.serialize 32 x)), ("y", .str (ByteArray.serialize 32 y))])

/-- Modelled from the serde derives on lib.rs lines 453-472 (spec §6): the
private exponent d, then each CRT parameter, omitted when absent. -/
def RsaPrivate.serializeFields (pr : RsaPrivate) : List (String × Json) :=
  ("d", .str (ByteVec.serialize pr.d)) ::
    (optField "p" pr.p ++ optField "q" pr.q ++ optField "dp" pr.dp ++
      optField "dq" pr.dq ++ optField "qi" pr.qi)

/-- Modelled from the serde derives on lib.rs lines 157-179 (spec §6): the
kty tag followed by the flattened variant fields. -/
def Key.serializeFields : Key → List (String × Json)
  | .EC curve => ("kty", .str "EC") :: curve.serializeFields
  | .RSA pub priv =>
    ("kty", .str "RSA") :: ("e", .str (PublicExponent.serialize pub.e)) ::
      ("n", .str (ByteVec.serialize pub.n)) ::
      (match priv with
       | some pr => pr.serializeFields
       | none => [])
  | .Symmetric k => [("kty", .str "oct"), ("k", .str (ByteVec.serialize k))]

/-- Source lib.rs lines 474-480: use serializes as "sig" or "enc". -/
def KeyUse.serializeJson : KeyUse → Json
  | .Signing => .str "sig"
  | .Encryption => .str "enc"

/-- Source lib.rs lines 482-487: the algorithm name is its variant name. -/
def Algorithm.serializeJson : Algorithm → Json
  | .HS256 => .str "HS256"
  | .RS256 => .str "RS256"
  | .ES256 => .str "ES256"

/-- The serialized key_ops entry, omitted entirely when the set is empty. -/
def opsEntry (ops : KeyOps) : Option Json :=
  if ops.is_empty then none else some (.arr (ops.ops.map .str))

/-- Modelled from the serde derives on lib.rs lines 78-94 (spec §4.6/§6): the
flattened key fields first, then use, key_ops, kid and alg in declaration
order, each omitted when empty or absent. -/
def JsonWebKey.serializeJson (jwk : JsonWebKey) : Json :=
  .obj (jwk.key.serializeFields ++
    (optEntry "use" (jwk.key_use.map KeyUse.serializeJson) ++
     optEntry "key_ops" (opsEntry jwk.key_ops) ++
     optEntry "kid" (jwk.key_id.map .str) ++
     optEntry "alg" (jwk.algorithm.map Algorithm.serializeJson)))

/-- Source lib.rs lines 474-480: deserialization of the use field. -/
def KeyUse.deserializeStr (s : String) : Except DeError KeyUse :=
  if s = "sig" then .ok .Signing
  else if s = "enc" then .ok .Encryption
  else .error (.unknownVariant s)

/-- Source lib.rs lines 482-487: deserialization of the alg field. -/
def Algorithm.deserializeStr (s : String) : Except DeError Algorithm :=
  if s = "HS256" then .ok .HS256
  else if s = "RS256" then .ok .RS256
  else if s = "ES256" then .ok .ES256
  else .error (.unknownVariant s)

/-- Expect every array element to be a string. -/
def strList : List Json → Except DeError (List String)
  | [] => .ok []
  | .str s :: rest => (strList rest).map (s :: ·)
  | _ => .error (.invalidType "expected a string")

/-- Deserialize a required 32-byte array field. -/
def reqByteArray32 (fields : List (String × Json)) (name : String) :
    Except DeError (ByteArray 32) :=
  match jlookup name fields with
  | none => .error (.missingField name)
  | some j =>
    match getStr j with
    | .error e => .error e
    | .ok s => ByteArray.deserialize 32 s

/-- Deserialize an optional 32-byte array field. -/
def optByteArray32 (fields : List (String × Json)) (name : String) :
    Except DeError (Option (ByteArray 32)) :=
  match jlookup name fields with
  | none => .ok none
  | some j =>
    match getStr j with
    | .error e => .error e
    | .ok s => (ByteArray.deserialize 32 s).map some

/-- Deserialize a required ByteVec field. -/
def reqByteVec (fields : List (String × Json)) (name : String) :
    Except DeError ByteVec :=
  match jlookup name fields with
  | none => .error (.missingField name)
  | some j =>
    match getStr j with
    | .error e => .error e
    | .ok s => ByteVec.deserialize s

/-- Deserialize an optional ByteVec field. -/
def optByteVec (fields : List (String × Json)) (name : String) :
    Except DeError (Option ByteVec) :=
  match jlookup name fields with
  | none => .ok none
  | some j =>
    match getStr j with
    | .error e => .error e
    | .ok s => (ByteVec.deserialize s).map some

/-- Modelled from the serde derives on lib.rs lines 401-415: the P-256 curve
variant requires crv = "P-256", reads the optional d and the required x, y. -/
def deserializeP256 (fields : List (String × Json)) : Except DeError Key :=
  match jlookup "crv" fields with
  | none => .error (.missingField "crv")
  | some crvJ =>
    match getStr crvJ with
    | .error e => .error e
    | .ok crv =>
      if crv = "P-256" then
        match optByteArray32 fields "d", reqByteArray32 fields "x",
            reqByteArray32 fields "y" with
        | .ok d, .ok x, .ok y => .ok (.EC (.P256 d x y))
        | .error e, _, _ => .error e
        | _, .error e, _ => .error e
        | _, _, .error e => .error e
      else .error (.unknownVariant crv)

/-- Whether any field of the flattened optional RsaPrivate group is present,
which is what makes serde attempt to deserialize the group at all. -/
def rsaPrivPresent (fields : List (String × Json)) : Bool :=
  (jlookup "d" fields).isSome || (jlookup "p" fields).isSome ||
  (jlookup "q" fields).isSome || (jlookup "dp" fields).isSome ||
  (jlookup "dq" fields).isSome || (jlookup "qi" fields).isSome

/-- Modelled from the serde derives on lib.rs lines 453-472: d is required,
the CRT parameters are optional. -/
def deserializeRsaPrivate (fields : List (String × Json)) :
    Except DeError RsaPrivate :=
  match reqByteVec fields "d", optByteVec fields "p", optByteVec fields "q",
      optByteVec fields "dp", optByteVec fields "dq", optByteVec fields "qi" with
  | .ok d, .ok p, .ok q, .ok dp, .ok dq, .ok qi => .ok ⟨d, p, q, dp, dq, qi⟩
  | .error e, _, _, _, _, _ => .error e
  | _, .error e, _, _, _, _ => .error e
  | _, _, .error e, _, _, _ => .error e
  | _, _, _, .error e, _, _ => .error e
  | _, _, _, _, .error e, _ => .error e
  | _, _, _, _, _, .error e => .error e

/-- Modelled from the serde derives on lib.rs lines 157-172 and 417-423: the
RSA variant reads the public pair e, n and the flattened optional private
group, attempted only when one of its fields is present. -/
def deserializeRSA (fields : List (String × Json)) : Except DeError Key :=
  let eRes : Except DeError PublicExponent :=
    match jlookup "e" fields with
    | none => .error (.missingField "e")
    | some j =>
      match getStr j with
      | .error e => .error e
      | .ok s => PublicExponent.deserialize s
  match eRes, reqByteVec fields "n" with
  | .ok e, .ok n =>
    if rsaPrivPresent fields then
      match deserializeRsaPrivate fields with
      | .ok pr => .ok (.RSA ⟨e, n⟩ (some pr))
      | .error er => .error er
    else .ok (.RSA ⟨e, n⟩ none)
  | .error er, _ => .error er
  | _, .error er => .error er

/-- Modelled from the serde derives on lib.rs lines 173-178: the symmetric
variant reads the key bytes from k. -/
def deserializeOct (fields : List (String × Json)) : Except DeError Key :=
  match reqByteVec fields "k" with
  | .ok k => .ok (.Symmetric k)
  | .error e => .error e

/-- Modelled from the serde derives on lib.rs lines 157-179: the internally
tagged Key enum dispatches on the kty tag. -/
def Key.deserializeFields (fields : List (String × Json)) : Except DeError Key :=
  match jlookup "kty" fields with
  | none => .error (.missingField "kty")
  | some tagJ =>
    match getStr tagJ with
    | .error e => .error e
    | .ok tag =>
      if tag = "EC" then deserializeP256 fields
      else if tag = "RSA" then deserializeRSA fields
      else if tag = "oct" then deserializeOct fields
      else .error (.unknownVariant tag)

/-- Deserialize the optional use field. -/
def deserializeUseField (fields : List (String × Json)) :
    Except DeError (Option KeyUse) :=
  match jlookup "use" fields with
  | none => .ok none
  | some j =>
    match getStr j with
    | .error e => .error e
    | .ok s => (KeyUse.deserializeStr s).map some

/-- Deserialize the key_ops field, empty when absent. -/
def deserializeOpsField (fields : List (String × Json)) : Except DeError KeyOps :=
  match jlookup "key_ops" fields with
  | none => .ok ⟨[]⟩
  | some (.arr elems) => (strList elems).map (fun l => ⟨l⟩)
  | some _ => .error (.invalidType "expected an array")

/-- Deserialize the optional kid field. -/
def deserializeKidField (fields : List (String × Json)) :
    Except DeError (Option String) :=
  match jlookup "kid" fields with
  | none => .ok none
  | some j => (getStr j).map some

/-- Deserialize the optional alg field. -/
def deserializeAlgField (fields : List (String × Json)) :
    Except DeError (Option Algorithm) :=
  match jlookup "alg" fields with
  | none => .ok none
  | some j =>
    match getStr j with
    | .error e => .error e
    | .ok s => (Algorithm.deserializeStr s).map some

/-- Modelled from the serde derives on lib.rs lines 78-94 (spec §4.6/§6):
structural deserialization of the envelope from a JSON object. -/
def JsonWebKey.deserializeJson : Json → Except DeError JsonWebKey
  | .obj fields =>
    match Key.deserializeFields fields, deserializeUseField fields,
        deserializeOpsField fields, deserializeKidField fields,
        deserializeAlgField fields with
    | .ok key, .ok u, .ok ops, .ok kid, .ok alg => .ok ⟨key, u, ops, kid, alg⟩
    | .error e, _, _, _, _ => .error e
    | _, .error e, _, _, _ => .error e
    | _, _, .error e, _, _ => .error e
    | _, _, _, .error e, _ => .error e
    | _, _, _, _, .error e => .error e
  | _ => .error (.invalidType "expected an object")

/-- Source lib.rs lines 113-115: from_slice is plain structural JSON
deserialization; the JSON text layer (serde_json) is external, so the input
is taken at the JSON value level. -/
def JsonWebKey.from_slice (j : Json) : Except Error JsonWebKey :=
  match JsonWebKey.deserializeJson j with
  | .error e => .error (.Serde e)
  | .ok jwk => .ok jwk

/-- Source lib.rs lines 134-145: from_str deserializes via from_slice, then
re-validates a present algorithm against the key. -/
def JsonWebKey.from_str (j : Json) : Except Error JsonWebKey :=
  match JsonWebKey.from_slice j with
  | .error e => .error e
  | .ok jwk =>
    match jwk.algorithm with
    | none => .ok jwk
    | some alg =>
      match JsonWebKey.validate_algorithm alg jwk.key with
      | .error e => .error e
      | .ok _ => .ok jwk

/-- Source lib.rs lines 560-571: conversion errors for the PKCS#8 export. -/
inductive ConversionError
  | MissingRsaParams
  | NotAsymmetric
  deriving DecidableEq, Repr

/-- The ASN.1 values written through the external DER writer (yasna), kept as
a tree instead of serialized bytes: integers, big unsigned integers, octet
strings, bit strings with a bit count, context-tagged values and sequences. -/
inductive Asn1
  | int (n : Int)
  | biguint (n : Nat)
  | octets (bytes : List Nat)
  | bitvecBytes (bytes : List Nat) (bits : Nat)
  | tagged (tag : Nat) (v : Asn1)
  | seq (elems : List Asn1)

/-- Modelled from the spec: `utils::pkcs8` is not under `src/`.  §4.5: the
written key body is wrapped in a PKCS#8 PrivateKeyInfo or PublicKeyInfo whose
algorithm identifier holds the given OIDs. -/
inductive Pkcs8
  | privateKeyInfo (oids : List (Option (List Nat))) (key : List Asn1)
  | publicKeyInfo (oids : List (Option (List Nat))) (body : Asn1)

/-- Source lib.rs line 237. -/
def ecPublicOid : List Nat := [1, 2, 840, 10045, 2, 1]

/-- Source lib.rs line 238. -/
def prime256v1Oid : List Nat := [1, 2, 840, 10045, 3, 1, 7]

/-- Source lib.rs lines 269-271. -/
def rsaEncryptionOid : List Nat := [1, 2, 840, 113549, 1, 1, 1]

/-- The external big-integer bridge: a big-endian byte list read as a natural
number, as BigUint::from_bytes_be does. -/
def fromBytesBE (bs : List Nat) : Nat := bs.foldl (fun acc b => acc * 256 + b) 0

/-- Source lib.rs lines 222-319: PKCS#8 DER export.  Symmetric keys are
rejected first; EC keys write version 1, the private scalar and the tagged
uncompressed public point (or just the point when public); RSA private keys
require all five CRT parameters and write the two-prime RSAPrivateKey
sequence with version 0, while public RSA keys write the RSAPublicKey pair.
The yasna byte serialization is external, so the output stays a tree. -/
def Key.try_to_der (k : Key) : Except ConversionError Pkcs8 :=
  match k with
  | .Symmetric _ => .error .NotAsymmetric
  | .EC (.P256 d x y) =>
    let publicBytes : List Nat := 4 :: (x.bytes ++ y.bytes)
    let writePublic : Asn1 := .bitvecBytes publicBytes (8 * (32 * 2 + 1))
    match d with
    | some dv =>
      .ok (.privateKeyInfo [some ecPublicOid, some prime256v1Oid]
        [.int 1, .octets dv.bytes, .tagged 1 writePublic])
    | none => .ok (.publicKeyInfo [some ecPublicOid, some prime256v1Oid] writePublic)
  | .RSA pub priv =>
    let writePub : List Asn1 :=
      [.biguint (fromBytesBE pub.n.bytes), .int (PUBLIC_EXPONENT : Nat)]
    match priv with
    | some ⟨d, some p, some q, some dp, some dq, some qi⟩ =>
      .ok (.privateKeyInfo [some rsaEncryptionOid, none]
        (.int 0 :: writePub ++
          [.biguint (fromBytesBE d.bytes), .biguint (fromBytesBE p.bytes),
           .biguint (fromBytesBE q.bytes), .biguint (fromBytesBE dp.bytes),
           .biguint (fromBytesBE dq.bytes), .biguint (fromBytesBE qi.bytes)]))
    | some _ => .error .MissingRsaParams
    | none => .ok (.publicKeyInfo [some rsaEncryptionOid, none] (.seq writePub))

/-- A ByteArray value is valid when it satisfies its length invariant and
holds actual bytes. -/
def ByteArray.valid (N : Nat) (a : ByteArray N) : Prop :=
  a.bytes.length = N ∧ validBytes a.bytes

instance (N : Nat) (a : ByteArray N) : Decidable (ByteArray.valid N a) :=
  inferInstanceAs (Decidable (_ ∧ _))

/-- A ByteVec value is valid when it holds actual bytes. -/
def ByteVec.valid (v : ByteVec) : Prop := validBytes v.bytes

instance (v : ByteVec) : Decidable (ByteVec.valid v) :=
  inferInstanceAs (Decidable (validBytes _))

/-- Validity of an optional buffer. -/
def optValid {α : Type} (P : α → Prop) : Option α → Prop
  | some a => P a
  | none => True

instance {α : Type} (P : α → Prop) [DecidablePred P] (o : Option α) :
    Decidable (optValid P o) := by
  cases o <;> simp only [optValid] <;> infer_instance

/-- Validity of a key: every byte buffer it owns is valid. -/
def Key.valid : Key → Prop
  | .EC (.P256 d x y) =>
    optValid (ByteArray.valid 32) d ∧ ByteArray.valid 32 x ∧ ByteArray.valid 32 y
  | .RSA pub priv =>
    ByteVec.valid pub.n ∧
      optValid (fun pr : RsaPrivate =>
        ByteVec.valid pr.d ∧ optValid ByteVec.valid pr.p ∧ optValid ByteVec.valid pr.q ∧
          optValid ByteVec.valid pr.dp ∧ optValid ByteVec.valid pr.dq ∧
          optValid ByteVec.valid pr.qi) priv
  | .Symmetric k => ByteVec.valid k

instance (k : Key) : Decidable (Key.valid k) := by
  cases k with
  | EC curve => cases curve; exact inferInstanceAs (Decidable (_ ∧ _))
  | RSA pub priv => exact inferInstanceAs (Decidable (_ ∧ _))
  | Symmetric key => exact inferInstanceAs (Decidable (ByteVec.valid _))

/-- Validity of an envelope record, §3: the byte buffers are valid and a
present algorithm is compatible with the key. -/
def JsonWebKey.valid (jwk : JsonWebKey) : Prop :=
  Key.valid jwk.key ∧
    optValid (fun alg => JsonWebKey.validate_algorithm alg jwk.key = .ok ())
      jwk.algorithm

instance (jwk : JsonWebKey) : Decidable (JsonWebKey.valid jwk) :=
  inferInstanceAs (Decidable (_ ∧ _))

/-- The three algorithm/key pairings that the spec declares compatible. -/
def compatPair (alg : Algorithm) (key : Key) : Prop :=
  (alg = .ES256 ∧ ∃ d x y, key = .EC (.P256 d x y)) ∨
  (alg = .RS256 ∧ ∃ pub priv, key = .RSA pub priv) ∨
  (alg = .HS256 ∧ ∃ k, key = .Symmetric k)

theorem validate_algorithm_cases (alg : Algorithm) (key : Key) :
    JsonWebKey.validate_algorithm alg key = .ok () ∨
    JsonWebKey.validate_algorithm alg key = .error .MismatchedAlgorithm := by
  cases alg <;> rcases key with ⟨⟨d, x, y⟩⟩ | ⟨pub, priv⟩ | k <;>
    simp [JsonWebKey.validate_algorithm]

theorem compatPair_iff (alg : Algorithm) (key : Key) :
    compatPair alg key ↔ JsonWebKey.validate_algorithm alg key = .ok () := by
  constructor
  · rintro (⟨rfl, d, x, y, rfl⟩ | ⟨rfl, pub, priv, rfl⟩ | ⟨rfl, k, rfl⟩) <;> rfl
  · intro h
    cases alg <;> rcases key with ⟨⟨d, x, y⟩⟩ | ⟨pub, priv⟩ | k
    all_goals first
      | exact Or.inl ⟨rfl, d, x, y, rfl⟩
      | exact Or.inr (Or.inl ⟨rfl, pub, priv, rfl⟩)
      | exact Or.inr (Or.inr ⟨rfl, k, rfl⟩)
      | exact absurd h (by simp [JsonWebKey.validate_algorithm])

/-- C1: set_algorithm and the underlying validation succeed exactly for the
pairs (ES256, EC/P-256), (RS256, RSA with or without a private part) and
(HS256, Symmetric), and return the mismatched-algorithm error for every
other algorithm/key pairing. -/
theorem set_algorithm_gating (jwk : JsonWebKey) (alg : Algorithm) :
    (compatPair alg jwk.key →
      JsonWebKey.validate_algorithm alg jwk.key = .ok () ∧
      JsonWebKey.set_algorithm jwk alg = .ok { jwk with algorithm := some alg }) ∧
    (¬ compatPair alg jwk.key →
      JsonWebKey.validate_algorithm alg jwk.key = .error .MismatchedAlgorithm ∧
      JsonWebKey.set_algorithm jwk alg = .error .MismatchedAlgorithm) := by
  constructor
  · intro h
    have hv := (compatPair_iff alg jwk.key).mp h
    exact ⟨hv, by simp [JsonWebKey.set_algorithm, hv]⟩
  · intro h
    have hv : JsonWebKey.validate_algorithm alg jwk.key = .error .MismatchedAlgorithm := by
      rcases validate_algorithm_cases alg jwk.key with hv | hv
      · exact absurd ((compatPair_iff alg jwk.key).mpr hv) h
      · exact hv
    exact ⟨hv, by simp [JsonWebKey.set_algorithm, hv]⟩

/-- Witness for C1: a symmetric key accepts HS256 and rejects ES256. -/
theorem set_algorithm_gating_witness :
    (JsonWebKey.validate_algorithm .HS256 (.Symmetric ⟨[1]⟩) = .ok () ∧
      JsonWebKey.set_algorithm (JsonWebKey.new (.Symmetric ⟨[1]⟩)) .HS256 =
        .ok { JsonWebKey.new (.Symmetric ⟨[1]⟩) with algorithm := some .HS256 }) ∧
    (JsonWebKey.validate_algorithm .ES256 (.Symmetric ⟨[1]⟩) = .error .MismatchedAlgorithm ∧
      JsonWebKey.set_algorithm (JsonWebKey.new (.Symmetric ⟨[1]⟩)) .ES256 =
        .error .MismatchedAlgorithm) :=
  ⟨(set_algorithm_gating (JsonWebKey.new (.Symmetric ⟨[1]⟩)) .HS256).1
      (Or.inr (Or.inr ⟨rfl, ⟨[1]⟩, rfl⟩)),
   (set_algorithm_gating (JsonWebKey.new (.Symmetric ⟨[1]⟩)) .ES256).2
      (by rintro (⟨_, _, _, _, h⟩ | ⟨h, _⟩ | ⟨h, _⟩) <;> cases h)⟩

/-- C2: from_str first structurally deserializes (propagating any error),
then re-validates a present algorithm against the key, failing the whole
parse with the mismatched-algorithm error on an incompatible pairing. -/
theorem from_str_validates_algorithm (j : Json) :
    (∀ e, JsonWebKey.from_slice j = .error e → JsonWebKey.from_str j = .error e) ∧
    (∀ jwk, JsonWebKey.from_slice j = .ok jwk →
      (jwk.algorithm = none → JsonWebKey.from_str j = .ok jwk) ∧
      (∀ alg, jwk.algorithm = some alg →
        (JsonWebKey.validate_algorithm alg jwk.key = .ok () →
          JsonWebKey.from_str j = .ok jwk) ∧
        (JsonWebKey.validate_algorithm alg jwk.key = .error .MismatchedAlgorithm →
          JsonWebKey.from_str j = .error .MismatchedAlgorithm))) := by
  refine ⟨fun e he => ?_, fun jwk hok => ⟨fun hnone => ?_, fun alg halg => ⟨fun hv => ?_, fun hv => ?_⟩⟩⟩
  · simp [JsonWebKey.from_str, he]
  · simp [JsonWebKey.from_str, hok, hnone]
  · simp [JsonWebKey.from_str, hok, halg, hv]
  · simp [JsonWebKey.from_str, hok, halg, hv]

/-- Witness for C2: a symmetric key document with alg HS256 parses, and the
same document with alg ES256 fails the whole parse. -/
theorem from_str_validates_algorithm_witness :
    JsonWebKey.from_str (.obj [("kty", .str "oct"), ("k", .str "AQ=="), ("alg", .str "HS256")]) =
      .ok ⟨.Symmetric ⟨[1]⟩, none, ⟨[]⟩, none, some .HS256⟩ ∧
    JsonWebKey.from_str (.obj [("kty", .str "oct"), ("k", .str "AQ=="), ("alg", .str "ES256")]) =
      .error .MismatchedAlgorithm :=
  ⟨(((from_str_validates_algorithm
        (.obj [("kty", .str "oct"), ("k", .str "AQ=="), ("alg", .str "HS256")])).2
      ⟨.Symmetric ⟨[1]⟩, none, ⟨[]⟩, none, some .HS256⟩ (by rfl)).2 .HS256 rfl).1 rfl,
   (((from_str_validates_algorithm
        (.obj [("kty", .str "oct"), ("k", .str "AQ=="), ("alg", .str "ES256")])).2
      ⟨.Symmetric ⟨[1]⟩, none, ⟨[]⟩, none, some .ES256⟩ (by rfl)).2 .ES256 rfl).2 rfl⟩

/-- C3: to_public is none exactly on symmetric keys, clears d on EC keys
preserving x and y, clears the private part on RSA keys preserving the
public part, and is the identity (under some) on keys already public. -/
theorem to_public_spec (k : Key) :
    (∀ kv, k = .Symmetric kv → k.to_public = none) ∧
    (∀ d x y, k = .EC (.P256 d x y) → k.to_public = some (.EC (.P256 none x y))) ∧
    (∀ pub priv, k = .RSA pub priv → k.to_public = some (.RSA pub none)) ∧
    (k.is_private = false → k.to_public = some k) := by
  refine ⟨fun kv hk => ?_, fun d x y hk => ?_, fun pub priv hk => ?_, fun hp => ?_⟩
  · subst hk; rfl
  · subst hk; cases d <;> simp [Key.to_public, Key.is_private]
  · subst hk; cases priv <;> simp [Key.to_public, Key.is_private]
  · simp [Key.to_public, hp]

/-- Witness for C3: evaluation on a symmetric, a private EC and a private
RSA key, and on a public RSA key. -/
theorem to_public_spec_witness :
    (Key.Symmetric ⟨[1]⟩).to_public = none ∧
    (Key.EC (.P256 (some ⟨[2]⟩) ⟨[3]⟩ ⟨[4]⟩)).to_public =
      some (.EC (.P256 none ⟨[3]⟩ ⟨[4]⟩)) ∧
    (Key.RSA ⟨⟨⟩, ⟨[5]⟩⟩ (some ⟨⟨[6]⟩, none, none, none, none, none⟩)).to_public =
      some (.RSA ⟨⟨⟩, ⟨[5]⟩⟩ none) ∧
    (Key.RSA ⟨⟨⟩, ⟨[5]⟩⟩ none).to_public = some (.RSA ⟨⟨⟩, ⟨[5]⟩⟩ none) :=
  ⟨(to_public_spec _).1 ⟨[1]⟩ rfl,
   (to_public_spec _).2.1 (some ⟨[2]⟩) ⟨[3]⟩ ⟨[4]⟩ rfl,
   (to_public_spec _).2.2.1 ⟨⟨⟩, ⟨[5]⟩⟩ (some ⟨⟨[6]⟩, none, none, none, none, none⟩) rfl,
   (to_public_spec _).2.2.2 rfl⟩

/-- C4: public derivation is idempotent on asymmetric keys, and symmetric
keys have no public counterpart. -/
theorem to_public_idempotent (k : Key) :
    ((∀ kv, k ≠ .Symmetric kv) → k.to_public.bind Key.to_public = k.to_public) ∧
    (∀ kv, k = .Symmetric kv → k.to_public = none) := by
  constructor
  · intro h
    rcases k with ⟨⟨d, x, y⟩⟩ | ⟨pub, priv⟩ | kv
    · cases d <;> simp [Key.to_public, Key.is_private]
    · cases priv <;> simp [Key.to_public, Key.is_private]
    · exact absurd rfl (h kv)
  · rintro kv rfl
    rfl

/-- Witness for C4: idempotence evaluated on a private EC key, and
to_public evaluated on a symmetric key. -/
theorem to_public_idempotent_witness :
    (Key.EC (.P256 (some ⟨[2]⟩) ⟨[3]⟩ ⟨[4]⟩)).to_public.bind Key.to_public =
      (Key.EC (.P256 (some ⟨[2]⟩) ⟨[3]⟩ ⟨[4]⟩)).to_public ∧
    (Key.Symmetric ⟨[9]⟩).to_public = none :=
  ⟨(to_public_idempotent _).1 (fun kv h => by cases h),
   (to_public_idempotent _).2 ⟨[9]⟩ rfl⟩

/-- C6: PublicExponent always serializes to "AQAB", and deserialization
accepts exactly "AQAB" and "AQABAA==" (both yielding the unique value),
rejecting every other string with the invalid-value error. -/
theorem public_exponent_serde :
    (∀ e : PublicExponent, e.serialize = "AQAB") ∧
    (∀ s : String,
      ((s = "AQAB" ∨ s = "AQABAA==") → PublicExponent.deserialize s = .ok ⟨⟩) ∧
      (s ≠ "AQAB" → s ≠ "AQABAA==" →
        PublicExponent.deserialize s =
          .error (.invalidValue "public exponent must be 65537"))) := by
  refine ⟨fun e => rfl, fun s => ⟨fun h => ?_, fun h1 h2 => ?_⟩⟩
  · simp [PublicExponent.deserialize, PUBLIC_EXPONENT_B64, PUBLIC_EXPONENT_B64_PADDED, h]
  · simp [PublicExponent.deserialize, PUBLIC_EXPONENT_B64, PUBLIC_EXPONENT_B64_PADDED,
      PUBLIC_EXPONENT, h1, h2]
    rfl

/-- Witness for C6: both accepted encodings succeed and a third string is
rejected. -/
theorem public_exponent_serde_witness :
    PublicExponent.deserialize "AQAB" = .ok ⟨⟩ ∧
    PublicExponent.deserialize "AQABAA==" = .ok ⟨⟩ ∧
    PublicExponent.deserialize "AAAA" =
      .error (.invalidValue "public exponent must be 65537") :=
  ⟨(public_exponent_serde.2 "AQAB").1 (Or.inl rfl),
   (public_exponent_serde.2 "AQABAA==").1 (Or.inr rfl),
   (public_exponent_serde.2 "AAAA").2 (by decide) (by decide)⟩

/-- C7: fixed-length construction succeeds iff the input length is N, the
failure message reports both expected and actual lengths, and string
deserialization base64-decodes first (failing with the decode error) and
only then applies the same length check (failing with invalid_length
carrying actual and expected). -/
theorem byte_array_length_check (N : Nat) (bytes : List Nat) (s : String) :
    (bytes.length = N → ByteArray.try_from_slice N bytes = .ok ⟨bytes⟩) ∧
    (bytes.length ≠ N →
      ByteArray.try_from_slice N bytes =
        .error s!"expected {N} bytes but got {bytes.length}") ∧
    (b64Decode s = none → ByteArray.deserialize N s = .error .base64Decode) ∧
    (∀ bs, b64Decode s = some bs → bs.length = N →
      ByteArray.deserialize N s = .ok ⟨bs⟩) ∧
    (∀ bs, b64Decode s = some bs → bs.length ≠ N →
      ByteArray.deserialize N s =
        .error (.invalidLength bs.length s!"{N} base64-encoded bytes")) := by
  refine ⟨fun h => ?_, fun h => ?_, fun h => ?_, fun bs hbs h => ?_, fun bs hbs h => ?_⟩
  · simp [ByteArray.try_from_slice, h]
  · simp [ByteArray.try_from_slice, h]
  · simp [ByteArray.deserialize, h]
  · simp [ByteArray.deserialize, ByteArray.try_from_slice, hbs, h]
  · simp [ByteArray.deserialize, ByteArray.try_from_slice, hbs, h]

/-- Witness for C7: a 2-byte buffer from a 2-byte slice, the length failure
from a 1-byte slice, a base64 failure, and both deserialization outcomes. -/
theorem byte_array_length_check_witness :
    ByteArray.try_from_slice 2 [1, 2] = .ok ⟨[1, 2]⟩ ∧
    ByteArray.try_from_slice 2 [1] = .error "expected 2 bytes but got 1" ∧
    ByteArray.deserialize 2 "!" = .error .base64Decode ∧
    ByteArray.deserialize 1 "AQ==" = .ok ⟨[1]⟩ ∧
    ByteArray.deserialize 2 "AQ==" =
      .error (.invalidLength 1 "2 base64-encoded bytes") :=
  ⟨(byte_array_length_check 2 [1, 2] "").1 rfl,
   (byte_array_length_check 2 [1] "").2.1 (by decide),
   (byte_array_length_check 2 [] "!").2.2.1 (by rfl),
   (byte_array_length_check 1 [] "AQ==").2.2.2.1 [1] (by rfl) rfl,
   (byte_array_length_check 2 [] "AQ==").2.2.2.2 [1] (by rfl) (by decide)⟩

/-- C8: PKCS#8 export rejects symmetric keys as not asymmetric, rejects a
private RSA key missing any CRT parameter with the distinct missing-params
error, and succeeds on a complete private RSA key, producing a
PrivateKeyInfo whose key body is the two-prime RSAPrivateKey sequence
starting with the version integer 0. -/
theorem try_to_der_rsa (pub : RsaPublic) (pr : RsaPrivate) (kv : ByteVec) :
    (Key.Symmetric kv).try_to_der = .error .NotAsymmetric ∧
    ((pr.p = none ∨ pr.q = none ∨ pr.dp = none ∨ pr.dq = none ∨ pr.qi = none) →
      (Key.RSA pub (some pr)).try_to_der = .error .MissingRsaParams) ∧
    (∀ p q dp dq qi, pr.p = some p → pr.q = some q → pr.dp = some dp →
      pr.dq = some dq → pr.qi = some qi →
      (Key.RSA pub (some pr)).try_to_der =
        .ok (.privateKeyInfo [some rsaEncryptionOid, none]
          [.int 0, .biguint (fromBytesBE pub.n.bytes), .int (PUBLIC_EXPONENT : Nat),
           .biguint (fromBytesBE pr.d.bytes), .biguint (fromBytesBE p.bytes),
           .biguint (fromBytesBE q.bytes), .biguint (fromBytesBE dp.bytes),
           .biguint (fromBytesBE dq.bytes), .biguint (fromBytesBE qi.bytes)])) := by
  obtain ⟨d, p, q, dp, dq, qi⟩ := pr
  refine ⟨rfl, fun h => ?_, fun p' q' dp' dq' qi' hp hq hdp hdq hqi => ?_⟩
  · rcases p with _ | p
    · rfl
    · rcases q with _ | q
      · rfl
      · rcases dp with _ | dp
        · rfl
        · rcases dq with _ | dq
          · rfl
          · rcases qi with _ | qi
            · rfl
            · simp at h
  · simp only at hp hq hdp hdq hqi
    subst hp hq hdp hdq hqi
    rfl

/-- Witness for C8: a private RSA key missing p is rejected, and a complete
private RSA key exports a version-0 RSAPrivateKey body. -/
theorem try_to_der_rsa_witness :
    (Key.RSA ⟨⟨⟩, ⟨[7]⟩⟩
        (some ⟨⟨[1]⟩, none, some ⟨[2]⟩, some ⟨[3]⟩, some ⟨[4]⟩, some ⟨[5]⟩⟩)).try_to_der =
      .error .MissingRsaParams ∧
    (Key.RSA ⟨⟨⟩, ⟨[7]⟩⟩
        (some ⟨⟨[1]⟩, some ⟨[2]⟩, some ⟨[3]⟩, some ⟨[4]⟩, some ⟨[5]⟩, some ⟨[6]⟩⟩)).try_to_der =
      .ok (.privateKeyInfo [some rsaEncryptionOid, none]
        [.int 0, .biguint 7, .int 65537, .biguint 1, .biguint 2,
         .biguint 3, .biguint 4, .biguint 5, .biguint 6]) :=
  ⟨(try_to_der_rsa ⟨⟨⟩, ⟨[7]⟩⟩ ⟨⟨[1]⟩, none, some ⟨[2]⟩, some ⟨[3]⟩, some ⟨[4]⟩, some ⟨[5]⟩⟩
      ⟨[]⟩).2.1 (Or.inl rfl),
   (try_to_der_rsa ⟨⟨⟩, ⟨[7]⟩⟩ ⟨⟨[1]⟩, some ⟨[2]⟩, some ⟨[3]⟩, some ⟨[4]⟩, some ⟨[5]⟩, some ⟨[6]⟩⟩
      ⟨[]⟩).2.2 ⟨[2]⟩ ⟨[3]⟩ ⟨[4]⟩ ⟨[5]⟩ ⟨[6]⟩ rfl rfl rfl rfl rfl⟩

/-- C10: from_slice performs no algorithm validation: whenever structural
deserialization succeeds with an algorithm incompatible with the key,
from_slice still returns Ok, while from_str on the same document returns
the mismatched-algorithm error. -/
theorem from_slice_skips_validation (j : Json) (jwk : JsonWebKey) (alg : Algorithm)
    (hok : JsonWebKey.from_slice j = .ok jwk)
    (halg : jwk.algorithm = some alg)
    (hbad : JsonWebKey.validate_algorithm alg jwk.key = .error .MismatchedAlgorithm) :
    JsonWebKey.from_slice j = .ok jwk ∧
    JsonWebKey.from_str j = .error .MismatchedAlgorithm :=
  ⟨hok, by simp [JsonWebKey.from_str, hok, halg, hbad]⟩

theorem jlookup_eq_none (name : String) (xs : List (String × Json))
    (h : ∀ p ∈ xs, p.1 ≠ name) : jlookup name xs = none := by
  induction xs with
  | nil => rfl
  | cons p ps ih =>
    simp only [jlookup]
    rw [if_neg (h p (by simp))]
    exact ih (fun q hq => h q (by simp [hq]))

theorem jlookup_append_right (name : String) (xs ys : List (String × Json))
    (h : ∀ p ∈ xs, p.1 ≠ name) : jlookup name (xs ++ ys) = jlookup name ys := by
  induction xs with
  | nil => rfl
  | cons p ps ih =>
    simp only [List.cons_append, jlookup]
    rw [if_neg (h p (by simp))]
    exact ih (fun q hq => h q (by simp [hq]))

theorem jlookup_optEntry_skip (name name2 : String) (o : Option Json)
    (rest : List (String × Json)) (h : name2 ≠ name) :
    jlookup name (optEntry name2 o ++ rest) = jlookup name rest := by
  cases o <;> simp [optEntry, jlookup, h]

theorem jlookup_optEntry_self (name : String) (j : Json)
    (rest : List (String × Json)) :
    jlookup name (optEntry name (some j) ++ rest) = some j := by
  simp [optEntry, jlookup]

theorem jlookup_optEntry_none (name : String) (rest : List (String × Json)) :
    jlookup name (optEntry name none ++ rest) = jlookup name rest := by
  simp [optEntry]

theorem mem_optEntry (name : String) (o : Option Json) (p : String × Json)
    (hp : p ∈ optEntry name o) : p.1 = name := by
  cases o with
  | none => simp [optEntry] at hp
  | some j =>
    simp [optEntry] at hp
    rw [hp]

/-- Environment of a flattened key: trailing fields may only be the four
envelope field names. -/
def EnvOnly (env : List (String × Json)) : Prop :=
  ∀ p ∈ env, p.1 = "use" ∨ p.1 = "key_ops" ∨ p.1 = "kid" ∨ p.1 = "alg"

theorem env_lookup_none (env : List (String × Json)) (henv : EnvOnly env)
    (name : String) (h1 : name ≠ "use") (h2 : name ≠ "key_ops")
    (h3 : name ≠ "kid") (h4 : name ≠ "alg") : jlookup name env = none := by
  apply jlookup_eq_none
  intro p hp
  rcases henv p hp with h | h | h | h
  · rw [h]; exact Ne.symm h1
  · rw [h]; exact Ne.symm h2
  · rw [h]; exact Ne.symm h3
  · rw [h]; exact Ne.symm h4

theorem mem_optField (name : String) (o : Option ByteVec) (p : String × Json)
    (hp : p ∈ optField name o) : p.1 = name :=
  mem_optEntry _ _ _ hp

theorem key_fields_names (key : Key) :
    ∀ p ∈ key.serializeFields,
      p.1 ∈ (["kty", "crv", "d", "x", "y", "e", "n", "k",
              "p", "q", "dp", "dq", "qi"] : List String) := by
  intro p hp
  rcases key with ⟨⟨d, x, y⟩⟩ | ⟨pub, priv⟩ | kv
  · simp only [Key.serializeFields, Curve.serializeFields, List.mem_cons,
      List.mem_append, List.mem_singleton, List.not_mem_nil, or_false] at hp
    rcases hp with rfl | rfl | hp | rfl | rfl
    · simp
    · simp
    · rw [mem_optEntry _ _ _ hp]; simp
    · simp
    · simp
  · rcases priv with _ | pr
    · simp only [Key.serializeFields, List.mem_cons, List.mem_singleton,
        List.append_nil, List.not_mem_nil, or_false] at hp
      rcases hp with rfl | rfl | rfl
      · simp
      · simp
      · simp
    · simp only [Key.serializeFields, RsaPrivate.serializeFields, List.append_assoc,
        List.mem_cons, List.mem_append, List.not_mem_nil, or_false] at hp
      rcases hp with rfl | rfl | rfl | rfl | hp | hp | hp | hp | hp
      · simp
      · simp
      · simp
      · simp
      · rw [mem_optField _ _ _ hp]; simp
      · rw [mem_optField _ _ _ hp]; simp
      · rw [mem_optField _ _ _ hp]; simp
      · rw [mem_optField _ _ _ hp]; simp
      · rw [mem_optField _ _ _ hp]; simp
  · simp only [Key.serializeFields, List.mem_cons, List.mem_singleton,
      List.not_mem_nil, or_false] at hp
    rcases hp with rfl | rfl
    · simp
    · simp

theorem key_fields_ne_env (key : Key) (name : String)
    (h : name = "use" ∨ name = "key_ops" ∨ name = "kid" ∨ name = "alg") :
    ∀ p ∈ key.serializeFields, p.1 ≠ name := by
  intro p hp he
  have hmem := key_fields_names key p hp
  rw [he] at hmem
  rcases h with h | h | h | h <;> rw [h] at hmem <;> simp at hmem

theorem byteArray_deserialize_serialize (a : ByteArray 32)
    (hv : ByteArray.valid 32 a) :
    ByteArray.deserialize 32 (ByteArray.serialize 32 a) = .ok a := by
  obtain ⟨bs⟩ := a
  obtain ⟨hlen, hbytes⟩ := hv
  simp [ByteArray.deserialize, ByteArray.serialize,
    b64Decode_b64Encode bs hbytes, ByteArray.try_from_slice, hlen]

theorem byteVec_deserialize_serialize (v : ByteVec) (hv : ByteVec.valid v) :
    ByteVec.deserialize (ByteVec.serialize v) = .ok v := by
  obtain ⟨bs⟩ := v
  simp [ByteVec.deserialize, ByteVec.serialize, b64Decode_b64Encode bs hv]

theorem pexp_round (pe : PublicExponent) :
    PublicExponent.deserialize (PublicExponent.serialize pe) = .ok pe := by
  obtain ⟨⟩ := pe
  rfl

theorem key_deserialize_round (key : Key) (env : List (String × Json))
    (henv : EnvOnly env) (hv : Key.valid key) :
    Key.deserializeFields (key.serializeFields ++ env) = .ok key := by
  have envd := env_lookup_none env henv "d" (by decide) (by decide) (by decide) (by decide)
  have envp := env_lookup_none env henv "p" (by decide) (by decide) (by decide) (by decide)
  have envq := env_lookup_none env henv "q" (by decide) (by decide) (by decide) (by decide)
  have envdp := env_lookup_none env henv "dp" (by decide) (by decide) (by decide) (by decide)
  have envdq := env_lookup_none env henv "dq" (by decide) (by decide) (by decide) (by decide)
  have envqi := env_lookup_none env henv "qi" (by decide) (by decide) (by decide) (by decide)
  rcases key with ⟨⟨d, x, y⟩⟩ | ⟨⟨e, n⟩, priv⟩ | kv
  · obtain ⟨hd, hx, hy⟩ := hv
    cases d with
    | none =>
      simp [Key.deserializeFields, Key.serializeFields, Curve.serializeFields,
        deserializeP256, optByteArray32, reqByteArray32, optEntry, jlookup, getStr,
        envd, byteArray_deserialize_serialize x hx, byteArray_deserialize_serialize y hy]
    | some dv =>
      simp [Key.deserializeFields, Key.serializeFields, Curve.serializeFields,
        deserializeP256, optByteArray32, reqByteArray32, optEntry, jlookup, getStr,
        Except.map, byteArray_deserialize_serialize dv hd,
        byteArray_deserialize_serialize x hx, byteArray_deserialize_serialize y hy]
  · obtain ⟨hn, hpriv⟩ := hv
    rcases priv with _ | ⟨dd, p, q, dp, dq, qi⟩
    · simp [Key.deserializeFields, Key.serializeFields, deserializeRSA, rsaPrivPresent,
        reqByteVec, jlookup, getStr, envd, envp, envq, envdp, envdq, envqi,
        pexp_round e, byteVec_deserialize_serialize n hn]
    · obtain ⟨hdd, hp, hq, hdp, hdq, hqi⟩ := hpriv
      have hddR : reqByteVec ((Key.RSA ⟨e, n⟩
          (some ⟨dd, p, q, dp, dq, qi⟩)).serializeFields ++ env) "d" = .ok dd := by
        simp [reqByteVec, Key.serializeFields, RsaPrivate.serializeFields, jlookup,
          getStr, byteVec_deserialize_serialize dd hdd]
      have hpR : optByteVec ((Key.RSA ⟨e, n⟩
          (some ⟨dd, p, q, dp, dq, qi⟩)).serializeFields ++ env) "p" = .ok p := by
        cases p with
        | none =>
          simp [optByteVec, Key.serializeFields, RsaPrivate.serializeFields, optField,
            jlookup, List.append_assoc, jlookup_optEntry_skip, jlookup_optEntry_self, jlookup_optEntry_none, Except.map,
            envp]
        | some v =>
          simp [optByteVec, Key.serializeFields, RsaPrivate.serializeFields, optField,
            jlookup, List.append_assoc, jlookup_optEntry_skip, jlookup_optEntry_self, jlookup_optEntry_none, Except.map,
            getStr, byteVec_deserialize_serialize v hp]
      have hqR : optByteVec ((Key.RSA ⟨e, n⟩
          (some ⟨dd, p, q, dp, dq, qi⟩)).serializeFields ++ env) "q" = .ok q := by
        cases q with
        | none =>
          simp [optByteVec, Key.serializeFields, RsaPrivate.serializeFields, optField,
            jlookup, List.append_assoc, jlookup_optEntry_skip, jlookup_optEntry_self, jlookup_optEntry_none, Except.map,
            envq]
        | some v =>
          simp [optByteVec, Key.serializeFields, RsaPrivate.serializeFields, optField,
            jlookup, List.append_assoc, jlookup_optEntry_skip, jlookup_optEntry_self, jlookup_optEntry_none, Except.map,
            getStr, byteVec_deserialize_serialize v hq]
      have hdpR : optByteVec ((Key.RSA ⟨e, n⟩
          (some ⟨dd, p, q, dp, dq, qi⟩)).serializeFields ++ env) "dp" = .ok dp := by
        cases dp with
        | none =>
          simp [optByteVec, Key.serializeFields, RsaPrivate.serializeFields, optField,
            jlookup, List.append_assoc, jlookup_optEntry_skip, jlookup_optEntry_self, jlookup_optEntry_none, Except.map,
            envdp]
        | some v =>
          simp [optByteVec, Key.serializeFields, RsaPrivate.serializeFields, optField,
            jlookup, List.append_assoc, jlookup_optEntry_skip, jlookup_optEntry_self, jlookup_optEntry_none, Except.map,
            getStr, byteVec_deserialize_serialize v hdp]
      have hdqR : optByteVec ((Key.RSA ⟨e, n⟩
          (some ⟨dd, p, q, dp, dq, qi⟩)).serializeFields ++ env) "dq" = .ok dq := by
        cases dq with
        | none =>
          simp [optByteVec, Key.serializeFields, RsaPrivate.serializeFields, optField,
            jlookup, List.append_assoc, jlookup_optEntry_skip, jlookup_optEntry_self, jlookup_optEntry_none, Except.map,
            envdq]
        | some v =>
          simp [optByteVec, Key.serializeFields, RsaPrivate.serializeFields, optField,
            jlookup, List.append_assoc, jlookup_optEntry_skip, jlookup_optEntry_self, jlookup_optEntry_none, Except.map,
            getStr, byteVec_deserialize_serialize v hdq]
      have hqiR : optByteVec ((Key.RSA ⟨e, n⟩
          (some ⟨dd, p, q, dp, dq, qi⟩)).serializeFields ++ env) "qi" = .ok qi := by
        cases qi with
        | none =>
          simp [optByteVec, Key.serializeFields, RsaPrivate.serializeFields, optField,
            jlookup, List.append_assoc, jlookup_optEntry_skip, jlookup_optEntry_self, jlookup_optEntry_none, Except.map,
            envqi]
        | some v =>
          simp [optByteVec, Key.serializeFields, RsaPrivate.serializeFields, optField,
            jlookup, List.append_assoc, jlookup_optEntry_skip, jlookup_optEntry_self, jlookup_optEntry_none, Except.map,
            getStr, byteVec_deserialize_serialize v hqi]
      have hktyL : jlookup "kty" ((Key.RSA ⟨e, n⟩
          (some ⟨dd, p, q, dp, dq, qi⟩)).serializeFields ++ env) = some (.str "RSA") := by
        simp [Key.serializeFields, jlookup]
      have heL : jlookup "e" ((Key.RSA ⟨e, n⟩
          (some ⟨dd, p, q, dp, dq, qi⟩)).serializeFields ++ env) =
          some (.str (PublicExponent.serialize e)) := by
        simp [Key.serializeFields, jlookup]
      have hnR : reqByteVec ((Key.RSA ⟨e, n⟩
          (some ⟨dd, p, q, dp, dq, qi⟩)).serializeFields ++ env) "n" = .ok n := by
        simp [reqByteVec, Key.serializeFields, jlookup, getStr,
          byteVec_deserialize_serialize n hn]
      have hdL : jlookup "d" ((Key.RSA ⟨e, n⟩
          (some ⟨dd, p, q, dp, dq, qi⟩)).serializeFields ++ env) =
          some (.str (ByteVec.serialize dd)) := by
        simp [Key.serializeFields, RsaPrivate.serializeFields, jlookup]
      have hpres : rsaPrivPresent ((Key.RSA ⟨e, n⟩
          (some ⟨dd, p, q, dp, dq, qi⟩)).serializeFields ++ env) = true := by
        simp [rsaPrivPresent, hdL]
      simp [Key.deserializeFields, deserializeRSA, deserializeRsaPrivate, getStr,
        hktyL, heL, hnR, hpres, pexp_round e, hddR, hpR, hqR, hdpR, hdqR, hqiR]
  · obtain ⟨kbs⟩ := kv
    simp [Key.deserializeFields, Key.serializeFields, jlookup, getStr,
      deserializeOct, reqByteVec, ByteVec.deserialize, ByteVec.serialize,
      b64Decode_b64Encode kbs hv]

theorem jlookup_optEntry_alone (name name2 : String) (o : Option Json)
    (h : name2 ≠ name) : jlookup name (optEntry name2 o) = none := by
  cases o <;> simp [optEntry, jlookup, h]

theorem jlookup_optEntry_self_alone (name : String) (j : Json) :
    jlookup name (optEntry name (some j)) = some j := by
  simp [optEntry, jlookup]

theorem jlookup_optEntry_none_alone (name : String) :
    jlookup name (optEntry name none) = none := rfl

theorem jlookup_key_env (key : Key) (name : String)
    (h : name = "use" ∨ name = "key_ops" ∨ name = "kid" ∨ name = "alg")
    (ys : List (String × Json)) :
    jlookup name (key.serializeFields ++ ys) = jlookup name ys :=
  jlookup_append_right _ _ _ (key_fields_ne_env key name h)

theorem strList_map (l : List String) : strList (l.map .str) = .ok l := by
  induction l with
  | nil => rfl
  | cons s rest ih => simp [strList, ih, Except.map]

theorem use_field_round (key : Key) (u : Option KeyUse) (ops : KeyOps)
    (kid : Option String) (a : Option Algorithm) :
    deserializeUseField (key.serializeFields ++
      (optEntry "use" (u.map KeyUse.serializeJson) ++
       optEntry "key_ops" (opsEntry ops) ++
       optEntry "kid" (kid.map .str) ++
       optEntry "alg" (a.map Algorithm.serializeJson))) = .ok u := by
  simp only [deserializeUseField]
  rw [jlookup_key_env key "use" (Or.inl rfl)]
  cases u with
  | none =>
    simp [List.append_assoc, jlookup_optEntry_skip, jlookup_optEntry_none,
      jlookup_optEntry_alone]
  | some uu =>
    cases uu <;>
      simp [List.append_assoc, jlookup_optEntry_self, KeyUse.serializeJson,
        KeyUse.deserializeStr, getStr, Except.map]

theorem ops_field_round (key : Key) (u : Option KeyUse) (ops : KeyOps)
    (kid : Option String) (a : Option Algorithm) :
    deserializeOpsField (key.serializeFields ++
      (optEntry "use" (u.map KeyUse.serializeJson) ++
       optEntry "key_ops" (opsEntry ops) ++
       optEntry "kid" (kid.map .str) ++
       optEntry "alg" (a.map Algorithm.serializeJson))) = .ok ops := by
  simp only [deserializeOpsField]
  rw [jlookup_key_env key "key_ops" (Or.inr (Or.inl rfl))]
  obtain ⟨l⟩ := ops
  cases l with
  | nil =>
    simp [List.append_assoc, opsEntry, KeyOps.is_empty, jlookup_optEntry_skip,
      jlookup_optEntry_none, jlookup_optEntry_alone]
  | cons s rest =>
    simp [List.append_assoc, opsEntry, KeyOps.is_empty, jlookup_optEntry_skip,
      jlookup_optEntry_self, strList, strList_map, Except.map]

theorem kid_field_round (key : Key) (u : Option KeyUse) (ops : KeyOps)
    (kid : Option String) (a : Option Algorithm) :
    deserializeKidField (key.serializeFields ++
      (optEntry "use" (u.map KeyUse.serializeJson) ++
       optEntry "key_ops" (opsEntry ops) ++
       optEntry "kid" (kid.map .str) ++
       optEntry "alg" (a.map Algorithm.serializeJson))) = .ok kid := by
  simp only [deserializeKidField]
  rw [jlookup_key_env key "kid" (Or.inr (Or.inr (Or.inl rfl)))]
  cases kid with
  | none =>
    simp [List.append_assoc, jlookup_optEntry_skip, jlookup_optEntry_none,
      jlookup_optEntry_alone]
  | some s =>
    simp [List.append_assoc, jlookup_optEntry_skip, jlookup_optEntry_self, getStr,
      Except.map]

theorem alg_field_round (key : Key) (u : Option KeyUse) (ops : KeyOps)
    (kid : Option String) (a : Option Algorithm) :
    deserializeAlgField (key.serializeFields ++
      (optEntry "use" (u.map KeyUse.serializeJson) ++
       optEntry "key_ops" (opsEntry ops) ++
       optEntry "kid" (kid.map .str) ++
       optEntry "alg" (a.map Algorithm.serializeJson))) = .ok a := by
  simp only [deserializeAlgField]
  rw [jlookup_key_env key "alg" (Or.inr (Or.inr (Or.inr rfl)))]
  cases a with
  | none =>
    simp [List.append_assoc, jlookup_optEntry_skip, jlookup_optEntry_none,
      jlookup_optEntry_alone, jlookup_optEntry_none_alone]
  | some aa =>
    cases aa <;>
      simp [List.append_assoc, jlookup_optEntry_skip, jlookup_optEntry_self,
        jlookup_optEntry_self_alone, Algorithm.serializeJson,
        Algorithm.deserializeStr, getStr, Except.map]

/-- C5: parsing the JSON produced by serializing any valid record yields the
record back: structural deserialization reconstructs every field, and the
re-validation of the algorithm passes because a valid record's algorithm is
compatible with its key. -/
theorem parse_serialize_roundtrip (jwk : JsonWebKey) (hv : jwk.valid) :
    JsonWebKey.from_str (JsonWebKey.serializeJson jwk) = .ok jwk := by
  obtain ⟨key, u, ops, kid, alg⟩ := jwk
  obtain ⟨hkey, halg⟩ := hv
  have henv : EnvOnly (optEntry "use" (u.map KeyUse.serializeJson) ++
      optEntry "key_ops" (opsEntry ops) ++
      optEntry "kid" (kid.map .str) ++
      optEntry "alg" (alg.map Algorithm.serializeJson)) := by
    intro pp hpp
    simp only [List.append_assoc, List.mem_append] at hpp
    rcases hpp with hpp | hpp | hpp | hpp
    · exact Or.inl (mem_optEntry _ _ _ hpp)
    · exact Or.inr (Or.inl (mem_optEntry _ _ _ hpp))
    · exact Or.inr (Or.inr (Or.inl (mem_optEntry _ _ _ hpp)))
    · exact Or.inr (Or.inr (Or.inr (mem_optEntry _ _ _ hpp)))
  have hkeyR := key_deserialize_round key _ henv hkey
  have hdes : JsonWebKey.deserializeJson
      (JsonWebKey.serializeJson ⟨key, u, ops, kid, alg⟩) =
      .ok ⟨key, u, ops, kid, alg⟩ := by
    simp only [JsonWebKey.serializeJson, JsonWebKey.deserializeJson]
    rw [hkeyR, use_field_round key u ops kid alg, ops_field_round key u ops kid alg,
      kid_field_round key u ops kid alg, alg_field_round key u ops kid alg]
  simp only [JsonWebKey.from_str, JsonWebKey.from_slice, hdes]
  cases alg with
  | none => rfl
  | some a =>
    have hva : JsonWebKey.validate_algorithm a key = .ok () := halg
    simp [hva]

/-- Witness for C5: a full-featured private EC record with use, key_ops,
kid and algorithm round-trips through serialization and parse. -/
theorem parse_serialize_roundtrip_witness :
    JsonWebKey.from_str (JsonWebKey.serializeJson
      ⟨.EC (.P256 (some ⟨List.replicate 32 2⟩) ⟨List.replicate 32 3⟩
          ⟨List.replicate 32 4⟩),
        some .Signing, ⟨["sign", "verify"]⟩, some "key-1", some .ES256⟩) =
      .ok ⟨.EC (.P256 (some ⟨List.replicate 32 2⟩) ⟨List.replicate 32 3⟩
          ⟨List.replicate 32 4⟩),
        some .Signing, ⟨["sign", "verify"]⟩, some "key-1", some .ES256⟩ :=
  parse_serialize_roundtrip
    ⟨.EC (.P256 (some ⟨List.replicate 32 2⟩) ⟨List.replicate 32 3⟩
        ⟨List.replicate 32 4⟩),
      some .Signing, ⟨["sign", "verify"]⟩, some "key-1", some .ES256⟩
    (by decide)

/-- Witness for C10: a symmetric key document claiming ES256 deserializes
through from_slice but fails from_str. -/
theorem from_slice_skips_validation_witness :
    JsonWebKey.from_slice (.obj [("kty", .str "oct"), ("k", .str "AQ=="), ("alg", .str "ES256")]) =
      .ok ⟨.Symmetric ⟨[1]⟩, none, ⟨[]⟩, none, some .ES256⟩ ∧
    JsonWebKey.from_str (.obj [("kty", .str "oct"), ("k", .str "AQ=="), ("alg", .str "ES256")]) =
      .error .MismatchedAlgorithm :=
  from_slice_skips_validation
    (.obj [("kty", .str "oct"), ("k", .str "AQ=="), ("alg", .str "ES256")])
    ⟨.Symmetric ⟨[1]⟩, none, ⟨[]⟩, none, some .ES256⟩ .ES256 (by rfl) rfl rfl

end JWK
